import Mathlib

/-!
Verification of the crypto.me backend cache core
(`src/backend/backend/app.py`), shallowly embedded in Lean 4.

Modelling choices:
* JSON documents (`profile_data`, PUT bodies) are association lists of
  `String` keys to a small `Json` value type; Python dict assignment
  `d[k] = v` is `setKey` (replace the first binding or append), and
  `k in d` / `d[k]` is `lookupKey`.
* The profile store (the `cached_profiles` table with its unique index on
  `ens_name`) is a list of `CachedProfile` records; `db.query(...).first()`
  is `List.find?`.  A committed mutation of a fetched record replaces the
  first record with that name (`replaceFirst`); an insert appends.
* Timestamps are integers (seconds); `datetime.utcnow()` becomes a `now`
  parameter, one instant per request; `timedelta(hours=1)` is `3600`.
* `hashlib.md5(...).hexdigest()` is an arbitrary function parameter
  `md5hex : String → String`: every theorem holds for every hash function.
* A store write (`db.commit()`) can fail; the flag `writeOk` says whether
  the commits issued by the current request succeed.  `update_cache`
  catches the failure and rolls back (state unchanged, no error escapes);
  `update_profile` has no handler, so its failure escapes to the caller,
  modelled by `Except.error`.
* ORM change tracking: `db.commit()` flushes reassigned attributes
  (`last_updated`, or a document passed to the row constructor), but an
  in-place mutation of the plain `Column(JSON)` value `profile_data` is
  invisible to the ORM and never flushed; and after a commit the session
  expires its objects, so a later read of `profile_data` returns the
  stored value.  Hence in `update_profile` the allow-list loop's output
  is dropped: neither the store nor the response carries it.
-/

namespace CryptoMe

/-- JSON-like values appearing in profile documents and update bodies. -/
inductive Json where
  | str : String → Json
  | num : Int → Json
  | obj : List (String × Json) → Json

/-- A JSON object: Python `dict` as an association list. -/
abbrev ProfileData := List (String × Json)

/-- Python `field in d` followed by `d[field]`: first binding of a key. -/
def lookupKey : ProfileData → String → Option Json
  | [], _ => none
  | (k', v') :: rest, k => if k' = k then some v' else lookupKey rest k

/-- Python `d[k] = v`: replace the first binding of `k`, or append it. -/
def setKey : ProfileData → String → Json → ProfileData
  | [], k, v => [(k, v)]
  | (k', v') :: rest, k, v =>
      if k' = k then (k, v) :: rest else (k', v') :: setKey rest k v

/-- Row of the `cached_profiles` table (class `CachedProfile` in app.py). -/
structure CachedProfile where
  ens_name : String
  profile_data : ProfileData
  last_updated : Int

/-- The `cached_profiles` table. -/
abbrev Store := List CachedProfile

/-- Model of `get_cached_profile`: `db.query(CachedProfile).filter(ens_name == ...).first()`. -/
def get_cached_profile (db : Store) (ens_name : String) : Option CachedProfile :=
  db.find? (fun cp => cp.ens_name == ens_name)

/-- Commit of a mutation to a fetched row: replace the first row keyed
by `n` (the one `get_cached_profile` returned). -/
def replaceFirst : Store → String → CachedProfile → Store
  | [], _, _ => []
  | cp :: rest, n, cp' =>
      if cp.ens_name == n then cp' :: rest else cp :: replaceFirst rest n cp'

/-- Model of `update_cache(db, ens_name, profile_data)`: update the existing row's
`profile_data` and `last_updated`, or insert a new row whose
`last_updated` takes the column default `datetime.utcnow`.  The body is a
`try/except` that rolls back on failure and propagates nothing, so the
result is the old state when the write fails and no error is returned. -/
def update_cache (db : Store) (ens_name : String) (profile_data : ProfileData)
    (now : Int) (writeOk : Bool) : Store :=
  let committed :=
    match get_cached_profile db ens_name with
    | some cp =>
        replaceFirst db ens_name
          { cp with profile_data := profile_data, last_updated := now }
    | none =>
        db ++ [{ ens_name := ens_name, profile_data := profile_data,
                 last_updated := now }]
  if writeOk then committed else db

/-- Model of `fetch_farcaster_stats`: placeholder returning fixed values. -/
def fetch_farcaster_stats (_ens_name : String) : ProfileData :=
  [("followers", Json.num 1000), ("following", Json.num 500),
   ("posts", Json.num 250)]

/-- Python `str.lower()` (ASCII case folding, character by character, as
`String.toLower` does; spelled out on `data` so it evaluates). -/
def lowerName (s : String) : String := ⟨s.data.map Char.toLower⟩

/-- Model of `fetch_profile_data`: gravatar URL from the md5 of the lowercased
name `@example.com`, plus the stubbed Farcaster stats. -/
def fetch_profile_data (md5hex : String → String) (ens_name : String) :
    ProfileData :=
  let email := lowerName ens_name ++ "@example.com"
  let gravatar_url :=
    "https://www.gravatar.com/avatar/" ++ md5hex email ++ "?d=identicon&s=200"
  [("ens_name", Json.str ens_name),
   ("avatar", Json.str gravatar_url),
   ("farcaster_stats", Json.obj (fetch_farcaster_stats ens_name))]

/-- Model of the `GET /profile/{ens_name}` handler `get_profile`: serve the cached
document when the row exists and `last_updated > now - 1 hour`, else
fetch and `update_cache`.  Returns the response body and the store. -/
def get_profile (md5hex : String → String) (ens_name : String) (db : Store)
    (now : Int) (writeOk : Bool) : ProfileData × Store :=
  match get_cached_profile db ens_name with
  | some cp =>
      if cp.last_updated > now - 3600 then
        (cp.profile_data, db)
      else
        let profile_data := fetch_profile_data md5hex ens_name
        (profile_data, update_cache db ens_name profile_data now writeOk)
  | none =>
      let profile_data := fetch_profile_data md5hex ens_name
      (profile_data, update_cache db ens_name profile_data now writeOk)

/-- Default document built by `update_profile` for a missing row. -/
def default_profile_data (ens_name : String) : ProfileData :=
  [("ens_name", Json.str ens_name),
   ("avatar", Json.str ("https://avatars.dicebear.com/api/identicon/"
      ++ ens_name ++ ".svg")),
   ("farcaster_stats", Json.obj
      [("followers", Json.num 0), ("following", Json.num 0),
       ("posts", Json.num 0)])]

/-- The list `allowed_fields = ["avatar"]` in `update_profile`. -/
def allowed_fields : List String := ["avatar"]

/-- The `for field in allowed_fields: if field in profile_update:
profile_data[field] = profile_update[field]` loop. -/
def apply_allowed_fields (profile_update : ProfileData) (pd : ProfileData) :
    ProfileData :=
  allowed_fields.foldl
    (fun acc field =>
      match lookupKey profile_update field with
      | some v => setKey acc field v
      | none => acc) pd

/-- Model of the `PUT /profile/{ens_name}` handler `update_profile`: create a default
row if missing (first `db.commit()`), run the allow-list loop, bump
`last_updated`, commit again.  Two effects of the ORM shape the result:
the loop mutates the `profile_data` dict in place, and a plain
`Column(JSON)` is not change-tracked, so the flush persists only the
reassigned `last_updated` attribute — the loop's output never reaches
the store; and the session's `expire_on_commit` default makes the final
`return` re-read the row, so the response also carries the stored
document, not the mutated dict.  There is no exception handler, so a
failing commit escapes to the caller (`Except.error`). -/
def update_profile (ens_name : String) (profile_update : ProfileData)
    (db : Store) (now : Int) (writeOk : Bool) :
    (Except String ProfileData) × Store :=
  match get_cached_profile db ens_name with
  | none =>
      if writeOk then
        let pd := default_profile_data ens_name
        let _mutated := apply_allowed_fields profile_update pd
        (Except.ok pd,
         db ++ [{ ens_name := ens_name, profile_data := pd,
                  last_updated := now }])
      else
        (Except.error "StoreWriteFailed", db)
  | some cp =>
      if writeOk then
        let _mutated := apply_allowed_fields profile_update cp.profile_data
        (Except.ok cp.profile_data,
         replaceFirst db ens_name { cp with last_updated := now })
      else
        (Except.error "StoreWriteFailed", db)

/-- The document `update_profile` goes on to mutate: the stored one when
the row exists, else the default document it just created (this names the
two branches of the handler). -/
def base_profile_data (db : Store) (n : String) : ProfileData :=
  match get_cached_profile db n with
  | some cp => cp.profile_data
  | none => default_profile_data n

/-- One inbound request: a `GET /profile/{n}` or a `PUT /profile/{n}`. -/
inductive Op where
  | get (md5hex : String → String) (n : String) (wk : Bool)
  | put (n : String) (fields : ProfileData) (wk : Bool)

/-- Effect of one request on the store. -/
def stepOp (op : Op) (now : Int) (db : Store) : Store :=
  match op with
  | .get md5hex n wk => (get_profile md5hex n db now wk).2
  | .put n fields wk => (update_profile n fields db now wk).2

/-- Run a sequence of timestamped requests against the store. -/
def runOps : List (Int × Op) → Store → Store
  | [], db => db
  | (t, op) :: rest, db => runOps rest (stepOp op t db)

/-- Every record in the store was last written at or before time `t`
(real time does not run backwards). -/
def storeLE (db : Store) (t : Int) : Prop :=
  ∀ cp ∈ db, cp.last_updated ≤ t

/-- The request timestamps are non-decreasing, starting from `t`. -/
def timesChain : Int → List (Int × Op) → Prop
  | _, [] => True
  | t, (t', _) :: rest => t ≤ t' ∧ timesChain t' rest

/-! ### Helper lemmas about the embedded store and documents -/

theorem lookupKey_setKey_self (pd : ProfileData) (k : String) (v : Json) :
    lookupKey (setKey pd k v) k = some v := by
  induction pd with
  | nil => simp [setKey, lookupKey]
  | cons hd tl ih =>
    obtain ⟨k', v'⟩ := hd
    by_cases h : k' = k
    · simp [setKey, lookupKey, h]
    · simp [setKey, lookupKey, h, ih]

theorem lookupKey_setKey_other (pd : ProfileData) (k : String) (v : Json)
    (k' : String) (h : k' ≠ k) :
    lookupKey (setKey pd k v) k' = lookupKey pd k' := by
  induction pd with
  | nil => simp [setKey, lookupKey, Ne.symm h]
  | cons hd tl ih =>
    obtain ⟨k₀, v₀⟩ := hd
    by_cases h₀ : k₀ = k
    · subst h₀
      simp [setKey, lookupKey, Ne.symm h]
    · by_cases h₁ : k₀ = k'
      · simp [setKey, lookupKey, h₀, h₁, h]
      · simp [setKey, lookupKey, h₀, h₁, ih]

/-- The `for field in allowed_fields` loop with `allowed_fields = ["avatar"]`
is a single conditional copy of the `avatar` key. -/
theorem apply_allowed_fields_eq (u pd : ProfileData) :
    apply_allowed_fields u pd =
      match lookupKey u "avatar" with
      | some v => setKey pd "avatar" v
      | none => pd := rfl

theorem ens_name_of_find {db : Store} {n : String} {cp : CachedProfile}
    (h : get_cached_profile db n = some cp) : cp.ens_name = n := by
  have := List.find?_some h
  simpa using this

theorem find_replaceFirst_self {db : Store} {n : String} {cp : CachedProfile}
    (cp' : CachedProfile) (h : get_cached_profile db n = some cp)
    (h' : cp'.ens_name = n) :
    get_cached_profile (replaceFirst db n cp') n = some cp' := by
  induction db with
  | nil => simp [get_cached_profile] at h
  | cons hd tl ih =>
    by_cases hh : hd.ens_name = n
    · simp [replaceFirst, get_cached_profile, hh, h']
    · simp only [get_cached_profile, List.find?] at h
      rw [show (hd.ens_name == n) = false by simpa using hh] at h
      simp [replaceFirst, get_cached_profile, hh, List.find?,
        show (hd.ens_name == n) = false by simpa using hh]
      exact ih h

theorem find_append_single {db : Store} {n : String} (cp' : CachedProfile)
    (h : get_cached_profile db n = none) (h' : cp'.ens_name = n) :
    get_cached_profile (db ++ [cp']) n = some cp' := by
  induction db with
  | nil => simp [get_cached_profile, List.find?, h']
  | cons hd tl ih =>
    by_cases hh : hd.ens_name = n
    · simp [get_cached_profile, List.find?, hh] at h
    · have hb : (hd.ens_name == n) = false := by simpa using hh
      simp only [get_cached_profile, List.find?] at h
      rw [hb] at h
      simp only [get_cached_profile, List.cons_append, List.find?, hb]
      exact ih h

/-! ### C1, C2, C6, C10 -/

/-- C1: when a cached row exists and is strictly less than one hour old,
`get_profile` returns its stored `profile_data` with the store untouched;
at exactly one hour of age it instead refetches and writes through
`update_cache`. -/
theorem getProfile_fresh_hit_and_exact_ttl_stale (md5hex : String → String)
    (n : String) (db : Store) (now : Int) (wk : Bool) (cp : CachedProfile)
    (hfind : get_cached_profile db n = some cp) :
    (now - cp.last_updated < 3600 →
      get_profile md5hex n db now wk = (cp.profile_data, db)) ∧
    (now - cp.last_updated = 3600 →
      get_profile md5hex n db now wk =
        (fetch_profile_data md5hex n,
         update_cache db n (fetch_profile_data md5hex n) now wk)) := by
  constructor
  · intro h
    simp [get_profile, hfind, show cp.last_updated > now - 3600 by omega]
  · intro h
    simp [get_profile, hfind, show ¬ cp.last_updated > now - 3600 by omega]

theorem getProfile_fresh_hit_witness :
    get_profile (fun _ => "") "a.eth" [⟨"a.eth", [], 0⟩] 0 true =
      ([], [⟨"a.eth", [], 0⟩]) ∧
    get_profile (fun _ => "") "a.eth" [⟨"a.eth", [], 0⟩] 3600 true =
      (fetch_profile_data (fun _ => "") "a.eth",
       update_cache [⟨"a.eth", [], 0⟩] "a.eth"
         (fetch_profile_data (fun _ => "") "a.eth") 3600 true) := by
  constructor
  · exact (getProfile_fresh_hit_and_exact_ttl_stale (fun _ => "") "a.eth"
      [⟨"a.eth", [], 0⟩] 0 true ⟨"a.eth", [], 0⟩ rfl).1 (by norm_num)
  · exact (getProfile_fresh_hit_and_exact_ttl_stale (fun _ => "") "a.eth"
      [⟨"a.eth", [], 0⟩] 3600 true ⟨"a.eth", [], 0⟩ rfl).2 (by norm_num)

/-- C2: on a miss or a stale row (age at least one hour), `get_profile`
fetches a fresh document, upserts it with `last_updated = now`, and
returns it; the handler's return type is total, so no error is raised
for unknown names. -/
theorem getProfile_miss_or_stale_refetches (md5hex : String → String)
    (n : String) (db : Store) (now : Int)
    (hstale : ∀ cp, get_cached_profile db n = some cp →
      now - cp.last_updated ≥ 3600) :
    get_profile md5hex n db now true =
      (fetch_profile_data md5hex n,
       update_cache db n (fetch_profile_data md5hex n) now true) ∧
    ∃ cp', get_cached_profile
        (update_cache db n (fetch_profile_data md5hex n) now true) n =
          some cp' ∧
      cp'.profile_data = fetch_profile_data md5hex n ∧
      cp'.last_updated = now := by
  cases hc : get_cached_profile db n with
  | none =>
    refine ⟨by simp [get_profile, hc], ?_⟩
    refine ⟨{ ens_name := n, profile_data := fetch_profile_data md5hex n,
              last_updated := now }, ?_, rfl, rfl⟩
    simpa [update_cache, hc] using find_append_single _ hc rfl
  | some cp =>
    have hst := hstale cp hc
    refine ⟨by simp [get_profile, hc, show ¬ cp.last_updated > now - 3600 by omega], ?_⟩
    refine ⟨CachedProfile.mk cp.ens_name (fetch_profile_data md5hex n) now,
      ?_, rfl, rfl⟩
    have hname : cp.ens_name = n := ens_name_of_find hc
    simpa [update_cache, hc] using
      find_replaceFirst_self
        (CachedProfile.mk cp.ens_name (fetch_profile_data md5hex n) now)
        hc hname

theorem getProfile_miss_refetches_witness :
    get_profile (fun _ => "h") "b.eth" [] 5 true =
      (fetch_profile_data (fun _ => "h") "b.eth",
       update_cache [] "b.eth" (fetch_profile_data (fun _ => "h") "b.eth")
         5 true) ∧
    ∃ cp', get_cached_profile
        (update_cache [] "b.eth" (fetch_profile_data (fun _ => "h") "b.eth")
          5 true) "b.eth" = some cp' ∧
      cp'.profile_data = fetch_profile_data (fun _ => "h") "b.eth" ∧
      cp'.last_updated = 5 :=
  getProfile_miss_or_stale_refetches (fun _ => "h") "b.eth" [] 5
    (by intro cp h; simp [get_cached_profile] at h)

/-- C6: the first `get_profile` call against an empty store creates
exactly one row and returns a document whose `ens_name` field is the
requested name. -/
theorem getProfile_empty_store_creates_one (md5hex : String → String)
    (n : String) (now : Int) :
    (get_profile md5hex n [] now true).2 =
      [{ ens_name := n, profile_data := fetch_profile_data md5hex n,
         last_updated := now }] ∧
    lookupKey (get_profile md5hex n [] now true).1 "ens_name" =
      some (Json.str n) := by
  constructor
  · simp [get_profile, get_cached_profile, update_cache]
  · simp [get_profile, get_cached_profile, fetch_profile_data, lookupKey]

/-- C10: the fetch path lowercases the name before hashing, so two names
equal up to case get the same avatar URL, while the cache keys them as
distinct rows (a lookup of one after a get of the other still misses). -/
theorem fetch_avatar_ignores_case_but_cache_key_does_not
    (md5hex : String → String) (a b : String) (now : Int)
    (hlow : lowerName a = lowerName b) (hne : a ≠ b) :
    lookupKey (fetch_profile_data md5hex a) "avatar" =
      lookupKey (fetch_profile_data md5hex b) "avatar" ∧
    get_cached_profile (get_profile md5hex a [] now true).2 b = none := by
  constructor
  · simp [fetch_profile_data, lookupKey, hlow]
  · have hb : (a == b) = false := by simpa using hne
    simp [get_profile, get_cached_profile, update_cache, List.find?, hb]

theorem fetch_avatar_ignores_case_witness :
    lookupKey (fetch_profile_data (fun s => s) "Alice.eth") "avatar" =
      lookupKey (fetch_profile_data (fun s => s) "alice.eth") "avatar" ∧
    get_cached_profile
      (get_profile (fun s => s) "Alice.eth" [] 0 true).2 "alice.eth" =
        none :=
  fetch_avatar_ignores_case_but_cache_key_does_not (fun s => s)
    "Alice.eth" "alice.eth" 0 (by decide) (by decide)

theorem getProfile_empty_store_creates_one_example :
    (get_profile (fun _ => "") "c.eth" [] 7 true).2 =
      [{ ens_name := "c.eth",
         profile_data := fetch_profile_data (fun _ => "") "c.eth",
         last_updated := 7 }] ∧
    lookupKey (get_profile (fun _ => "") "c.eth" [] 7 true).1 "ens_name" =
      some (Json.str "c.eth") :=
  getProfile_empty_store_creates_one (fun _ => "") "c.eth" 7

/-! ### The allow-list loop and the PUT handler's post-state -/

theorem lookupKey_apply_allowed_not_avatar (u pd : ProfileData) (k : String)
    (h : k ≠ "avatar") :
    lookupKey (apply_allowed_fields u pd) k = lookupKey pd k := by
  rw [apply_allowed_fields_eq]
  cases hv : lookupKey u "avatar" with
  | none => rfl
  | some v => exact lookupKey_setKey_other pd "avatar" v k h

theorem lookupKey_apply_allowed_avatar (u pd : ProfileData) (v : Json)
    (h : lookupKey u "avatar" = some v) :
    lookupKey (apply_allowed_fields u pd) "avatar" = some v := by
  rw [apply_allowed_fields_eq, h]
  exact lookupKey_setKey_self pd "avatar" v

theorem apply_allowed_fields_no_avatar (u pd : ProfileData)
    (h : lookupKey u "avatar" = none) :
    apply_allowed_fields u pd = pd := by
  rw [apply_allowed_fields_eq, h]

/-- A successful `update_profile` returns the stored (or freshly
created default) document unchanged — the allow-list loop's in-place
mutation is never flushed nor returned — and bumps the row's
`last_updated` to `now`. -/
theorem updateProfile_post (n : String) (fields : ProfileData) (db : Store)
    (now : Int) :
    (update_profile n fields db now true).1 =
      Except.ok (base_profile_data db n) ∧
    ∃ cp', get_cached_profile (update_profile n fields db now true).2 n =
        some cp' ∧
      cp'.profile_data = base_profile_data db n ∧
      cp'.last_updated = now := by
  cases hc : get_cached_profile db n with
  | none =>
    refine ⟨by simp [update_profile, hc, base_profile_data], ?_⟩
    refine ⟨CachedProfile.mk n (default_profile_data n) now, ?_,
      by simp [base_profile_data, hc], rfl⟩
    simp only [update_profile, hc, if_true]
    exact find_append_single _ hc rfl
  | some cp =>
    refine ⟨by simp [update_profile, hc, base_profile_data], ?_⟩
    have hname : cp.ens_name = n := ens_name_of_find hc
    refine ⟨CachedProfile.mk cp.ens_name cp.profile_data now, ?_,
      by simp [base_profile_data, hc], rfl⟩
    simp only [update_profile, hc, if_true]
    exact find_replaceFirst_self _ hc hname

/-! ### C3 and C7 -/

/-- C3: the claimed allow-list copy does not happen.  The PUT loop
mutates the `profile_data` dict in place, which a plain `Column(JSON)`
does not change-track, so the commit never persists the new avatar and
the expired-and-reloaded response does not contain it either: against a
row whose avatar is `"old"`, a PUT of avatar `"X"` leaves `"old"` in
both the response and the store (the rest of the claim — other keys
ignored, `farcaster_stats` untouched, no error — holds trivially
because nothing at all is copied). -/
theorem updateProfile_avatar_copy_lost :
    (update_profile "alice.eth"
        [("avatar", Json.str "X"),
         ("farcaster_stats", Json.obj [("followers", Json.num 999)])]
        [CachedProfile.mk "alice.eth"
          [("avatar", Json.str "old"),
           ("farcaster_stats", Json.obj [("followers", Json.num 1)])] 0]
        1 true).1 =
      Except.ok
        [("avatar", Json.str "old"),
         ("farcaster_stats", Json.obj [("followers", Json.num 1)])] ∧
    get_cached_profile
      (update_profile "alice.eth"
        [("avatar", Json.str "X"),
         ("farcaster_stats", Json.obj [("followers", Json.num 999)])]
        [CachedProfile.mk "alice.eth"
          [("avatar", Json.str "old"),
           ("farcaster_stats", Json.obj [("followers", Json.num 1)])] 0]
        1 true).2 "alice.eth" =
      some (CachedProfile.mk "alice.eth"
        [("avatar", Json.str "old"),
         ("farcaster_stats", Json.obj [("followers", Json.num 1)])] 1) ∧
    ("old" : String) ≠ "X" := by
  refine ⟨rfl, rfl, by decide⟩

/-- C7: the PUT handler always sets the row's `last_updated` to `now`,
even when the body holds no allow-listed key and `profile_data` is
therefore unchanged. -/
theorem updateProfile_bumps_timestamp (n : String) (fields : ProfileData)
    (db : Store) (now : Int) :
    ∃ cp', get_cached_profile (update_profile n fields db now true).2 n =
        some cp' ∧
      cp'.last_updated = now ∧
      (lookupKey fields "avatar" = none →
        cp'.profile_data = base_profile_data db n) := by
  obtain ⟨-, cp', h2, h3, h4⟩ := updateProfile_post n fields db now
  exact ⟨cp', h2, h4, fun _ => h3⟩

theorem updateProfile_bumps_timestamp_witness :
    ∃ cp', get_cached_profile
        (update_profile "z.eth" [("bio", Json.str "hi")]
          [⟨"z.eth", [("avatar", Json.str "old")], 3⟩] 42 true).2 "z.eth" =
        some cp' ∧
      cp'.last_updated = 42 ∧
      (lookupKey [("bio", Json.str "hi")] "avatar" = none →
        cp'.profile_data =
          base_profile_data [⟨"z.eth", [("avatar", Json.str "old")], 3⟩]
            "z.eth") :=
  updateProfile_bumps_timestamp "z.eth" [("bio", Json.str "hi")]
    [⟨"z.eth", [("avatar", Json.str "old")], 3⟩] 42

/-! ### GET post-state, C4, C5, C8 -/

/-- A GET that finds a fresh row serves it and leaves the store alone. -/
theorem get_profile_of_fresh {db : Store} {n : String} {cp : CachedProfile}
    (md5hex : String → String) {now : Int}
    (h : get_cached_profile db n = some cp)
    (hf : cp.last_updated > now - 3600) (wk : Bool) :
    get_profile md5hex n db now wk = (cp.profile_data, db) := by
  simp [get_profile, h, hf]

/-- After a successful GET the store holds a row for `n` carrying exactly
the document the GET returned. -/
theorem getProfile_post (md5hex : String → String) (n : String) (db : Store)
    (now : Int) :
    ∃ cp, get_cached_profile (get_profile md5hex n db now true).2 n =
        some cp ∧
      cp.profile_data = (get_profile md5hex n db now true).1 := by
  cases hc : get_cached_profile db n with
  | none =>
    refine ⟨CachedProfile.mk n (fetch_profile_data md5hex n) now, ?_, ?_⟩
    · simp only [get_profile, hc]
      simpa [update_cache, hc] using find_append_single _ hc rfl
    · simp [get_profile, hc]
  | some cp =>
    by_cases hf : cp.last_updated > now - 3600
    · refine ⟨cp, ?_, ?_⟩
      · rw [get_profile_of_fresh md5hex hc hf true]
        exact hc
      · simp [get_profile, hc, hf]
    · have hname : cp.ens_name = n := ens_name_of_find hc
      refine ⟨CachedProfile.mk cp.ens_name (fetch_profile_data md5hex n) now,
        ?_, ?_⟩
      · simp only [get_profile, hc, if_neg hf]
        simpa [update_cache, hc] using
          find_replaceFirst_self
            (CachedProfile.mk cp.ens_name (fetch_profile_data md5hex n) now)
            hc hname
      · simp [get_profile, hc, hf]

/-- C4: the GET-PUT-GET scenario fails in the code.  The PUT's avatar is
lost (the in-place JSON mutation is never flushed and the response row
is re-read after commit), so the final GET inside the TTL window serves
the first GET's document: its avatar is still the gravatar URL of the
first fetch, a different string from the `"http://x/y.png"` that was
PUT.  Evaluated here on an empty store with the hash function mapping
everything to `""`. -/
theorem get_put_get_avatar_not_updated :
    lookupKey (get_profile (fun _ => "") "alice.eth"
        (update_profile "alice.eth" [("avatar", Json.str "http://x/y.png")]
          (get_profile (fun _ => "") "alice.eth" [] 0 true).2 1 true).2
        2 true).1 "avatar" =
      some (Json.str "https://www.gravatar.com/avatar/?d=identicon&s=200") ∧
    lookupKey (get_profile (fun _ => "") "alice.eth" [] 0 true).1 "avatar" =
      some (Json.str "https://www.gravatar.com/avatar/?d=identicon&s=200") ∧
    ("https://www.gravatar.com/avatar/?d=identicon&s=200" : String) ≠
      "http://x/y.png" := by
  refine ⟨rfl, rfl, by decide⟩

/-- C5: a second GET inside the TTL window of the row the first GET left
behind returns the same document and writes nothing. -/
theorem getProfile_twice_within_ttl (md5hex : String → String) (n : String)
    (db : Store) (t1 t2 : Int) (h12 : t1 ≤ t2)
    (hfresh : ∀ cp,
      get_cached_profile (get_profile md5hex n db t1 true).2 n = some cp →
      cp.last_updated > t2 - 3600) :
    get_profile md5hex n (get_profile md5hex n db t1 true).2 t2 true =
      ((get_profile md5hex n db t1 true).1,
       (get_profile md5hex n db t1 true).2) := by
  obtain ⟨cp, hfind, hpd⟩ := getProfile_post md5hex n db t1
  have hf := hfresh cp hfind
  rw [get_profile_of_fresh md5hex hfind hf true, hpd]

theorem getProfile_twice_witness :
    get_profile (fun _ => "") "w.eth"
        (get_profile (fun _ => "") "w.eth" [] 0 true).2 10 true =
      ((get_profile (fun _ => "") "w.eth" [] 0 true).1,
       (get_profile (fun _ => "") "w.eth" [] 0 true).2) :=
  getProfile_twice_within_ttl (fun _ => "") "w.eth" [] 0 10 (by norm_num)
    (by
      intro cp h
      simp [get_profile, get_cached_profile, update_cache, List.find?] at h
      subst h
      decide)

/-- C8 as stated is false: a failing commit inside the PUT handler
`update_profile` reaches the caller as an error, not as a normal
response. -/
theorem updateProfile_write_failure_propagates :
    (update_profile "alice.eth" [("avatar", Json.str "x")] [] 0 false).1 =
      Except.error "StoreWriteFailed" := rfl

/-- C8 amended: `update_cache` — the GET refresh path — swallows a failed
write (prior state kept, `get_profile` still answers with a document),
while the PUT handler `update_profile` propagates the failure to its
caller, with the prior state preserved. -/
theorem store_write_failure_handling (md5hex : String → String) (n : String)
    (fields pd : ProfileData) (db : Store) (now : Int) :
    update_cache db n pd now false = db ∧
    (get_profile md5hex n db now false).2 = db ∧
    ((get_profile md5hex n db now false).1 = fetch_profile_data md5hex n ∨
      ∃ cp, get_cached_profile db n = some cp ∧
        (get_profile md5hex n db now false).1 = cp.profile_data) ∧
    update_profile n fields db now false =
      (Except.error "StoreWriteFailed", db) := by
  refine ⟨by simp [update_cache], ?_, ?_, ?_⟩
  · cases hc : get_cached_profile db n with
    | none => simp [get_profile, hc, update_cache]
    | some cp =>
      by_cases hf : cp.last_updated > now - 3600
      · simp [get_profile, hc, hf]
      · simp [get_profile, hc, hf, update_cache]
  · cases hc : get_cached_profile db n with
    | none => exact Or.inl (by simp [get_profile, hc])
    | some cp =>
      by_cases hf : cp.last_updated > now - 3600
      · exact Or.inr ⟨cp, rfl, by simp [get_profile, hc, hf]⟩
      · exact Or.inl (by simp [get_profile, hc, hf])
  · cases hc : get_cached_profile db n with
    | none => simp [update_profile, hc]
    | some cp => simp [update_profile, hc]

theorem store_write_failure_handling_witness :
    update_cache [] "q.eth" [] 0 false = [] ∧
    (get_profile (fun _ => "") "q.eth" [] 0 false).2 = [] ∧
    ((get_profile (fun _ => "") "q.eth" [] 0 false).1 =
        fetch_profile_data (fun _ => "") "q.eth" ∨
      ∃ cp, get_cached_profile [] "q.eth" = some cp ∧
        (get_profile (fun _ => "") "q.eth" [] 0 false).1 = cp.profile_data) ∧
    update_profile "q.eth" [] [] 0 false =
      (Except.error "StoreWriteFailed", []) :=
  store_write_failure_handling (fun _ => "") "q.eth" [] [] [] 0

/-! ### C9: `last_updated` is monotone along request sequences -/

theorem mem_replaceFirst {db : Store} {n : String} {cp' x : CachedProfile}
    (hx : x ∈ replaceFirst db n cp') : x = cp' ∨ x ∈ db := by
  induction db with
  | nil => simp [replaceFirst] at hx
  | cons hd tl ih =>
    simp only [replaceFirst] at hx
    by_cases hh : (hd.ens_name == n) = true
    · rw [if_pos hh] at hx
      rcases List.mem_cons.mp hx with h | h
      · exact Or.inl h
      · exact Or.inr (List.mem_cons_of_mem _ h)
    · rw [if_neg hh] at hx
      rcases List.mem_cons.mp hx with h | h
      · exact Or.inr (h ▸ List.mem_cons_self _ _)
      · rcases ih h with h' | h'
        · exact Or.inl h'
        · exact Or.inr (List.mem_cons_of_mem _ h')

theorem find_replaceFirst_of_ne {db : Store} {n m : String}
    (cp' : CachedProfile) (h' : cp'.ens_name = n) (hnm : n ≠ m) :
    get_cached_profile (replaceFirst db n cp') m = get_cached_profile db m := by
  induction db with
  | nil => simp [replaceFirst]
  | cons hd tl ih =>
    by_cases hh : hd.ens_name = n
    · have h1 : (cp'.ens_name == m) = false := by simp [h', hnm]
      have h2 : (hd.ens_name == m) = false := by simp [hh, hnm]
      have h3 : (n == m) = false := by simpa using hnm
      simp [replaceFirst, get_cached_profile, List.find?, hh, h1, h2, h3]
    · have hb : (hd.ens_name == n) = false := by simpa using hh
      simp only [replaceFirst, hb, if_neg, Bool.false_eq_true,
        not_false_eq_true, get_cached_profile, List.find?]
      cases hm : (hd.ens_name == m) with
      | true => rfl
      | false => exact ih

theorem find_append_of_some {db : Store} {m : String} {cp : CachedProfile}
    (cp' : CachedProfile) (h : get_cached_profile db m = some cp) :
    get_cached_profile (db ++ [cp']) m = some cp := by
  induction db with
  | nil => simp [get_cached_profile, List.find?] at h
  | cons hd tl ih =>
    simp only [get_cached_profile, List.find?, List.cons_append] at h ⊢
    cases hm : (hd.ens_name == m) with
    | true => rw [hm] at h; exact h
    | false => rw [hm] at h; exact ih h

theorem storeLE_mono {db : Store} {t t' : Int} (h : storeLE db t)
    (htt : t ≤ t') : storeLE db t' :=
  fun cp hcp => le_trans (h cp hcp) htt

theorem storeLE_update_cache {db : Store} {t : Int} (n : String)
    (pd : ProfileData) (wk : Bool) (h : storeLE db t) :
    storeLE (update_cache db n pd t wk) t := by
  intro x hx
  cases wk with
  | false =>
    simp only [update_cache, if_neg, Bool.false_eq_true, not_false_eq_true]
      at hx
    exact h x hx
  | true =>
    cases hc : get_cached_profile db n with
    | none =>
      rw [show update_cache db n pd t true =
        db ++ [CachedProfile.mk n pd t] by simp [update_cache, hc]] at hx
      rcases List.mem_append.mp hx with h1 | h1
      · exact h x h1
      · have hx1 : x = CachedProfile.mk n pd t := by simpa using h1
        simp [hx1]
    | some cp =>
      rw [show update_cache db n pd t true =
        replaceFirst db n (CachedProfile.mk cp.ens_name pd t)
          by simp [update_cache, hc]] at hx
      rcases mem_replaceFirst hx with h1 | h1
      · simp [h1]
      · exact h x h1

theorem storeLE_update_profile {db : Store} {t : Int} (n : String)
    (fields : ProfileData) (wk : Bool) (h : storeLE db t) :
    storeLE (update_profile n fields db t wk).2 t := by
  intro x hx
  cases hc : get_cached_profile db n with
  | none =>
    cases wk with
    | false =>
      simp only [update_profile, hc] at hx
      exact h x (by simpa using hx)
    | true =>
      simp only [update_profile, hc, if_true] at hx
      rcases List.mem_append.mp hx with h1 | h1
      · exact h x h1
      · have hx1 : x = CachedProfile.mk n (default_profile_data n) t := by
          simpa using h1
        simp [hx1]
  | some cp =>
    cases wk with
    | false =>
      simp only [update_profile, hc] at hx
      exact h x (by simpa using hx)
    | true =>
      simp only [update_profile, hc, if_true] at hx
      rcases mem_replaceFirst hx with h1 | h1
      · simp [h1]
      · exact h x h1

theorem storeLE_get_profile {db : Store} {t : Int} (md5hex : String → String)
    (n : String) (wk : Bool) (h : storeLE db t) :
    storeLE (get_profile md5hex n db t wk).2 t := by
  cases hc : get_cached_profile db n with
  | none =>
    intro x hx
    refine storeLE_update_cache n (fetch_profile_data md5hex n) wk h x ?_
    simpa [get_profile, hc] using hx
  | some cp =>
    by_cases hf : cp.last_updated > t - 3600
    · intro x hx
      exact h x (by simpa [get_profile_of_fresh md5hex hc hf wk] using hx)
    · intro x hx
      refine storeLE_update_cache n (fetch_profile_data md5hex n) wk h x ?_
      simpa [get_profile, hc, hf] using hx

theorem storeLE_stepOp {db : Store} {t : Int} (op : Op) (h : storeLE db t) :
    storeLE (stepOp op t db) t := by
  cases op with
  | get md5hex n wk => exact storeLE_get_profile md5hex n wk h
  | put n fields wk => exact storeLE_update_profile n fields wk h

theorem find_update_cache_mono {db : Store} {t : Int} {m : String}
    {cp : CachedProfile} (n : String) (pd : ProfileData) (wk : Bool)
    (h : storeLE db t) (hfind : get_cached_profile db m = some cp) :
    ∃ cp', get_cached_profile (update_cache db n pd t wk) m = some cp' ∧
      cp.last_updated ≤ cp'.last_updated := by
  cases wk with
  | false =>
    refine ⟨cp, ?_, le_refl _⟩
    simpa [update_cache] using hfind
  | true =>
    cases hc : get_cached_profile db n with
    | none =>
      rw [show update_cache db n pd t true =
        db ++ [CachedProfile.mk n pd t] by simp [update_cache, hc]]
      exact ⟨cp, find_append_of_some _ hfind, le_refl _⟩
    | some cpn =>
      rw [show update_cache db n pd t true =
        replaceFirst db n (CachedProfile.mk cpn.ens_name pd t)
          by simp [update_cache, hc]]
      by_cases hnm : n = m
      · subst hnm
        have hname : cpn.ens_name = n := ens_name_of_find hc
        refine ⟨CachedProfile.mk cpn.ens_name pd t, ?_, ?_⟩
        · exact find_replaceFirst_self (CachedProfile.mk cpn.ens_name pd t)
            hc hname
        · exact h cp (List.mem_of_find?_eq_some hfind)
      · have hname0 : cpn.ens_name = n := ens_name_of_find hc
        have hname : (CachedProfile.mk cpn.ens_name pd t).ens_name = n := hname0
        refine ⟨cp, ?_, le_refl _⟩
        rw [find_replaceFirst_of_ne (CachedProfile.mk cpn.ens_name pd t)
          hname hnm]
        exact hfind

theorem find_stepOp_mono {db : Store} {t : Int} {m : String}
    {cp : CachedProfile} (op : Op) (h : storeLE db t)
    (hfind : get_cached_profile db m = some cp) :
    ∃ cp', get_cached_profile (stepOp op t db) m = some cp' ∧
      cp.last_updated ≤ cp'.last_updated := by
  cases op with
  | get md5hex n wk =>
    cases hc : get_cached_profile db n with
    | none =>
      have := find_update_cache_mono n (fetch_profile_data md5hex n) wk h hfind
      simpa [stepOp, get_profile, hc] using this
    | some cpn =>
      by_cases hf : cpn.last_updated > t - 3600
      · refine ⟨cp, ?_, le_refl _⟩
        simpa [stepOp, get_profile_of_fresh md5hex hc hf wk] using hfind
      · have := find_update_cache_mono n (fetch_profile_data md5hex n) wk h hfind
        simpa [stepOp, get_profile, hc, hf] using this
  | put n fields wk =>
    cases hc : get_cached_profile db n with
    | none =>
      cases wk with
      | false =>
        refine ⟨cp, ?_, le_refl _⟩
        simpa [stepOp, update_profile, hc] using hfind
      | true =>
        refine ⟨cp, ?_, le_refl _⟩
        simp only [stepOp, update_profile, hc, if_true]
        exact find_append_of_some _ hfind
    | some cpn =>
      cases wk with
      | false =>
        refine ⟨cp, ?_, le_refl _⟩
        simpa [stepOp, update_profile, hc] using hfind
      | true =>
        simp only [stepOp, update_profile, hc, if_true]
        by_cases hnm : n = m
        · subst hnm
          have hname : cpn.ens_name = n := ens_name_of_find hc
          refine ⟨CachedProfile.mk cpn.ens_name cpn.profile_data t, ?_, ?_⟩
          · exact find_replaceFirst_self
              (CachedProfile.mk cpn.ens_name cpn.profile_data t) hc hname
          · exact h cp (List.mem_of_find?_eq_some hfind)
        · have hname0 : cpn.ens_name = n := ens_name_of_find hc
          have hname : (CachedProfile.mk cpn.ens_name cpn.profile_data
              t).ens_name = n := hname0
          refine ⟨cp, ?_, le_refl _⟩
          rw [find_replaceFirst_of_ne
            (CachedProfile.mk cpn.ens_name cpn.profile_data t) hname hnm]
          exact hfind

/-- C9: along any sequence of GET and PUT requests whose timestamps do
not decrease (and starting from a store whose rows are not from the
future), the `last_updated` of each record never decreases. -/
theorem lastUpdated_monotone_over_runs (ops : List (Int × Op)) (t0 : Int)
    (db : Store) (m : String) (h0 : storeLE db t0)
    (hch : timesChain t0 ops) :
    ∀ cp, get_cached_profile db m = some cp →
      ∃ cp', get_cached_profile (runOps ops db) m = some cp' ∧
        cp.last_updated ≤ cp'.last_updated := by
  induction ops generalizing t0 db with
  | nil => exact fun cp h => ⟨cp, h, le_refl _⟩
  | cons hd rest ih =>
    obtain ⟨t1, op⟩ := hd
    obtain ⟨h01, hch'⟩ := hch
    intro cp hfind
    have hL : storeLE db t1 := storeLE_mono h0 h01
    obtain ⟨cp1, hfind1, hle1⟩ := find_stepOp_mono op hL hfind
    obtain ⟨cp2, hfind2, hle2⟩ :=
      ih t1 (stepOp op t1 db) (storeLE_stepOp op hL) hch' cp1 hfind1
    exact ⟨cp2, hfind2, le_trans hle1 hle2⟩

theorem lastUpdated_monotone_witness :
    ∃ cp', get_cached_profile
        (runOps [(1, Op.put "m.eth" [] true),
                 (2, Op.get (fun _ => "") "m.eth" true)]
          [CachedProfile.mk "m.eth" [] 0]) "m.eth" = some cp' ∧
      (CachedProfile.mk "m.eth" [] 0).last_updated ≤ cp'.last_updated :=
  lastUpdated_monotone_over_runs
    [(1, Op.put "m.eth" [] true), (2, Op.get (fun _ => "") "m.eth" true)]
    0 [CachedProfile.mk "m.eth" [] 0] "m.eth"
    (by intro cp hcp; simp at hcp; simp [hcp])
    ⟨by norm_num, by norm_num, trivial⟩
    (CachedProfile.mk "m.eth" [] 0) rfl

end CryptoMe
